import Mathlib

/-!
# Verification of the Maestro USB servo-controller protocol layer

Shallow embedding of `maestro/usc` (main.py, protocol.py, settings.py):
the parameter table, the settings codecs (speed, home, baud rate, channel
modes), the script/subroutine upload pipeline and the status-buffer
decoders, together with theorems settling the specification claims.

Machine integers are modelled as `Nat` (with explicit masking where the
source masks); Python's float expressions in the baud-rate conversions are
modelled by exact rational arithmetic, which agrees with the source for all
in-range inputs; fallible code returns `Option`/`Except`-style results.
-/

namespace Maestro

/-- Channel modes, from `protocol.py` (`ChannelMode`, values 0-3). -/
inductive ChannelMode where
  | Servo
  | ServoMultiplied
  | Output
  | Input
deriving DecidableEq, Repr

/-- The numeric value of a channel mode (`IntEnum` values 0,1,2,3). -/
def ChannelMode.toNat : ChannelMode → Nat
  | .Servo => 0
  | .ServoMultiplied => 1
  | .Output => 2
  | .Input => 3

/-- Home modes, from `protocol.py` (`HomeMode`, values 0-2). -/
inductive HomeMode where
  | Off
  | Ignore
  | Goto
deriving DecidableEq, Repr

/-- Parameter range descriptor, from `main.py` class `Range`:
byte width and inclusive numeric bounds. -/
structure ParamRange where
  bytes : Nat
  minimumValue : Nat
  maximumValue : Nat
deriving DecidableEq, Repr

/-- `Range.u16()` -/
def ParamRange.u16 : ParamRange := ⟨2, 0, 0xFFFF⟩
/-- `Range.u8()` -/
def ParamRange.u8 : ParamRange := ⟨1, 0, 0xFF⟩
/-- `Range.u7()` -/
def ParamRange.u7 : ParamRange := ⟨1, 0, 0x7F⟩
/-- `Range.boolean()` -/
def ParamRange.boolean : ParamRange := ⟨1, 0, 1⟩

/-- Instruction frequency constant (`Usc.INSTRUCTION_FREQUENCY`). -/
def INSTRUCTION_FREQUENCY : Nat := 12000000

/-! ## Speed codec (`Usc._exponentialSpeedToNormalSpeed`,
`Usc._normalSpeedToExponentialSpeed`) -/

/-- `Usc._exponentialSpeedToNormalSpeed`: mantissa = byte >> 3,
exponent = byte & 7, value = mantissa * 2^exponent. -/
def exponentialSpeedToNormalSpeed (exponentialSpeed : Nat) : Nat :=
  let mantissa := exponentialSpeed >>> 3
  let exponent := exponentialSpeed &&& 7
  mantissa * (1 <<< exponent)

/-- Loop body of `Usc._normalSpeedToExponentialSpeed` (the `while True`
loop, entered with `mantissa = normalSpeed`, `exponent = 0`). -/
def normalSpeedToExponentialSpeedAux (mantissa exponent : Nat) : Nat :=
  if mantissa < 32 then
    exponent + (mantissa <<< 3)
  else if exponent = 7 then
    0xFF
  else
    normalSpeedToExponentialSpeedAux (mantissa >>> 1) (exponent + 1)
termination_by mantissa
decreasing_by
  have : mantissa >>> 1 = mantissa / 2 := Nat.shiftRight_eq_div_pow mantissa 1 ▸ by
    norm_num
  omega

/-- `Usc._normalSpeedToExponentialSpeed`. -/
def normalSpeedToExponentialSpeed (normalSpeed : Nat) : Nat :=
  normalSpeedToExponentialSpeedAux normalSpeed 0

/-! ## Channel-to-port mapping (`Usc._channelToPort`) -/

/-- `Usc._channelToPort`: channels 0-3 map to themselves, channels 4-5 to
ports 6-7; any other channel raises (modelled as `none`). -/
def channelToPort (channel : Nat) : Option Nat :=
  if channel ≤ 3 then some channel
  else if channel < 6 then some (channel + 2)
  else none

/-! ## Baud-rate conversions (`Usc._convertBpsToSpbrg`,
`Usc._convertSpbrgToBps`).

The source computes with Python floats; for all inputs the protocol can
produce (magnitudes well below 2^53, and quotients at least 2^-17 away
from the nearest integer whenever they are not exactly integral) the float
computation truncates to the same integer as exact rational arithmetic,
so the embedding uses `ℚ` with truncation toward zero (`int(...)`). -/

/-- Python `int()` on a rational: truncation toward zero. -/
def ratTruncToInt (q : ℚ) : ℤ :=
  if 0 ≤ q then ⌊q⌋ else ⌈q⌉

/-- `Usc._convertBpsToSpbrg`: 0 for bps = 0, else
`int((12000000 - bps/2) / bps)`. -/
def convertBpsToSpbrg (bps : Nat) : ℤ :=
  if bps = 0 then 0
  else ratTruncToInt (((INSTRUCTION_FREQUENCY : ℚ) - (bps : ℚ) / 2) / (bps : ℚ))

/-- `Usc._convertSpbrgToBps`: 0 for spbrg = 0, else
`int((12000000 + (spbrg+1)/2) / (spbrg+1))`. -/
def convertSpbrgToBps (spbrg : Nat) : ℤ :=
  if spbrg = 0 then 0
  else ratTruncToInt (((INSTRUCTION_FREQUENCY : ℚ) + ((spbrg : ℚ) + 1) / 2) / ((spbrg : ℚ) + 1))

/-! ## Home position codec (`Usc.setUscSettings` lines 424-436 encode;
`Usc.getUscSettings` lines 525-535 decode). -/

/-- Home encoding from `Usc.setUscSettings`: the home mode is forced to
`Ignore` when the channel mode is `Input`; `Off` encodes as raw 0,
`Ignore` as raw 1, otherwise the stored home position is used. -/
def encodeHome (mode : ChannelMode) (homeMode : HomeMode) (home : Nat) : Nat :=
  let correctedHomeMode := if mode = ChannelMode.Input then HomeMode.Ignore else homeMode
  if correctedHomeMode = HomeMode.Off then 0
  else if correctedHomeMode = HomeMode.Ignore then 1
  else home

/-- Home decoding from `Usc.getUscSettings`: raw 0 is `(Off, 0)`, raw 1 is
`(Ignore, 0)`, any other raw value v is `(Goto, v)`. -/
def decodeHome (raw : Nat) : HomeMode × Nat :=
  if raw = 0 then (HomeMode.Off, 0)
  else if raw = 1 then (HomeMode.Ignore, 0)
  else (HomeMode.Goto, raw)

/-! ## Parameter identifiers (`protocol.py`, `uscParameter`).

Numeric values of the `IntEnum`; note the aliases
`PARAMETER_CHANNEL_MODES_16_19 = PARAMETER_IO_MASK_C = 16` and
`PARAMETER_CHANNEL_MODES_20_23 = PARAMETER_OUTPUT_MASK_C = 17`. -/

/-- `PARAMETER_SERVO0_HOME` (2-byte home position of channel 0). -/
def PARAMETER_SERVO0_HOME : Nat := 30
/-- `PARAMETER_SERVO0_MIN` -/
def PARAMETER_SERVO0_MIN : Nat := 32
/-- `PARAMETER_SERVO0_MAX` -/
def PARAMETER_SERVO0_MAX : Nat := 33
/-- `PARAMETER_SERVO0_NEUTRAL` -/
def PARAMETER_SERVO0_NEUTRAL : Nat := 34
/-- `PARAMETER_SERVO0_RANGE` -/
def PARAMETER_SERVO0_RANGE : Nat := 36
/-- `PARAMETER_SERVO0_SPEED` -/
def PARAMETER_SERVO0_SPEED : Nat := 37
/-- `PARAMETER_SERVO0_ACCELERATION` -/
def PARAMETER_SERVO0_ACCELERATION : Nat := 38

/-- `Usc.specifyServo`: the parameter number of a per-servo attribute of a
given channel, from the corresponding servo-0 parameter number
(`servoParameterBytes = 9` parameter slots per channel). -/
def specifyServo (p servo : Nat) : Nat :=
  p + servo * 9

/-- The fold in the `else` branch of `Usc.getRange`:
`((parameterId - PARAMETER_SERVO0_HOME) % 9) + PARAMETER_SERVO0_HOME`,
with Python's nonnegative `%` on a positive modulus (`Int.emod`). -/
def servoParameterFold (parameterId : Nat) : Nat :=
  ((((parameterId : Int) - 30) % 9) + 30).toNat

/-- `Usc.getRange`: the per-parameter byte width and inclusive range.
Membership lists carry the numeric `uscParameter` values, in source
order: `[INITIALIZED, SERVOS_AVAILABLE, SERVO_PERIOD,
MINI_MAESTRO_SERVO_PERIOD_L, SERVO_MULTIPLIER, CHANNEL_MODES_0_3 .. 20_23,
ENABLE_PULLUPS]` etc.  The unknown-parameter exception is `none`. -/
def getRange (parameterId : Nat) : Option ParamRange :=
  if parameterId ∈ [0, 1, 2, 18, 26, 12, 13, 14, 15, 16, 17, 21] then
    some ParamRange.u8
  else if parameterId ∈ [19, 6, 4, 22] then
    some ParamRange.u16
  else if parameterId ∈ [9, 8, 24] then
    some ParamRange.boolean
  else if parameterId = 10 then
    some ParamRange.u7
  else if parameterId = 3 then
    some ⟨1, 0, 3⟩
  else if parameterId = 11 then
    some ⟨1, 0, 1⟩
  else if parameterId = 25 then
    some ⟨1, 0, 254⟩
  else
    let servoParameter := servoParameterFold parameterId
    if servoParameter ∈ [37, 33, 32, 38] then
      some ParamRange.u8
    else if servoParameter ∈ [30, 34] then
      some ⟨2, 0, 32440⟩
    else if servoParameter = 36 then
      some ⟨1, 1, 50⟩
    else
      none

/-- The parameter identifiers tested explicitly (by membership or
equality) before `Usc.getRange` falls through to the per-servo fold. -/
def listedParameterIds : List Nat :=
  [0, 1, 2, 18, 26, 12, 13, 14, 15, 16, 17, 21, 19, 6, 4, 22, 9, 8, 24, 10, 3, 11, 25]

/-! ## Script and subroutine upload (`Usc.setSubroutines`,
`Usc.writeScript`, `Usc.loadProgram`). -/

/-- Modelled from the spec: the bytecode `Opcode` enum lives in
`maestro.bytecode`, which is not under `src/`.  The only opcode values the
protocol layer uses are the indirect-call-only marker `Opcode.CALL`
(subroutines bound to it occupy no table slot) and the terminator
`Opcode.QUIT` ("quit"), so a subroutine command is represented as either
the marker or a concrete opcode byte. -/
inductive SubCommand where
  | call
  | opcode (value : Nat)
deriving DecidableEq, Repr

/-- Modelled from the spec: the terminator ("quit") opcode appended after
the last instruction of a short program; its numeric value is irrelevant
to every claim. -/
def OpcodeQUIT : Nat := 0

/-- A compiled program as consumed by `Usc.loadProgram`
(`maestro.bytecode`'s program class is not under `src/`): its byte code,
its named subroutines (the two dicts `subroutineAddresses` and
`subroutineCommands`, keyed by the same names, merged into one association
list of name, address and command), and its CRC. -/
structure Program where
  byteCode : List Nat
  subroutines : List (String × Nat × SubCommand)
  crc : Nat

/-- The loop body of `Usc.setSubroutines`: a subroutine whose command is
the `CALL` marker is skipped; otherwise `value % 256` is stored at offset
`2 * (bytecode - 128)` and `value >> 8` at the following offset. -/
def setSubroutinesStep (data : List Nat) (sub : String × Nat × SubCommand) : List Nat :=
  match sub.2.2 with
  | .call => data
  | .opcode bytecode =>
      (data.set (2 * (bytecode - 128)) (sub.2.1 % 256)).set
        (2 * (bytecode - 128) + 1) (sub.2.1 >>> 8)

/-- The subroutine address table built by `Usc.setSubroutines`: a 256-byte
region pre-filled with 0xFF, then filled subroutine by subroutine. -/
def setSubroutinesData (subs : List (String × Nat × SubCommand)) : List Nat :=
  subs.foldl setSubroutinesStep (List.replicate 256 0xFF)

/-- The opcode values of the subroutines not carrying the `CALL` marker,
in order; used to state that opcode bindings are pairwise distinct. -/
def subOpcodes (subs : List (String × Nat × SubCommand)) : List Nat :=
  subs.filterMap
    (fun sub =>
      match sub.2.2 with
      | .call => none
      | .opcode c => some c)

/-- The byte-list preparation at the head of `Usc.loadProgram`: reject a
program longer than `maxScriptLength`; append one terminator opcode when
strictly shorter; leave a full-length program unchanged. -/
def loadProgramByteList (maxScriptLength : Nat) (byteCode : List Nat) : Option (List Nat) :=
  if byteCode.length > maxScriptLength then
    none
  else if byteCode.length < maxScriptLength then
    some (byteCode ++ [OpcodeQUIT])
  else
    some byteCode

/-! ## Settings model (`settings.py`). -/

/-- `ChannelSetting` with its constructor defaults (`settings.py`). -/
structure ChannelSetting where
  name : String := ""
  mode : ChannelMode := .Servo
  homeMode : HomeMode := .Off
  home : Nat := 6000
  minimum : Nat := 3968
  maximum : Nat := 8000
  neutral : Nat := 6000
  range : Nat := 1905
  speed : Nat := 0
  acceleration : Nat := 0
deriving DecidableEq, Repr

/-- `UscSettings` with its constructor defaults (`settings.py`); the
script fields are carried separately as `Program`. -/
structure UscSettings where
  servosAvailable : Nat := 6
  servoPeriod : Nat := 156
  miniMaestroServoPeriod : Nat := 80000
  servoMultiplier : Nat := 1
  serialMode : Nat := 2
  fixedBaudRate : Nat := 9600
  enableCrc : Bool := false
  neverSuspend : Bool := false
  serialDeviceNumber : Nat := 12
  miniSscOffset : Nat := 0
  serialTimeout : Nat := 0
  scriptDone : Bool := true
  channelSettings : List ChannelSetting := []
  enablePullups : Bool := true
deriving DecidableEq, Repr

/-! ## Settings reconciliation (`Usc.fixSettings`). -/

/-- The warning messages `Usc.fixSettings` can append, modelled as tags
(the source appends formatted human-readable strings; only their number
and identity matter here). -/
inductive FixWarning where
  | extraChannels (got expected : Nat)
  | missingChannels (got expected : Nat)
  | serialDeviceNumberClamped
deriving DecidableEq, Repr

/-- The padding `while` loop of `Usc.fixSettings`: append default
`ChannelSetting`s until `servoCount` entries exist; a padded channel is
marked `Input` when the device is a Micro Maestro and `servosAvailable`
does not exceed the current length. -/
def padChannels (micro : Bool) (servosAvailable servoCount : Nat)
    (cs : List ChannelSetting) : List ChannelSetting :=
  if cs.length < servoCount then
    let c : ChannelSetting :=
      if micro ∧ servosAvailable ≤ cs.length then { mode := .Input } else {}
    padChannels micro servosAvailable servoCount (cs ++ [c])
  else
    cs
termination_by servoCount - cs.length
decreasing_by
  simp only [List.length_append, List.length_cons, List.length_nil]
  omega

/-- The per-channel normalization loop of `Usc.fixSettings`: `Input`
channels get the input defaults (and `homeMode = Ignore`), `Output`
channels get the output defaults. -/
def fixChannelSetting (c : ChannelSetting) : ChannelSetting :=
  if c.mode = .Input then
    { c with homeMode := .Ignore, minimum := 0, maximum := 1024, speed := 0,
             acceleration := 0, neutral := 1024, range := 1905 }
  else if c.mode = .Output then
    { c with minimum := 3986, maximum := 8000, speed := 0,
             acceleration := 0, neutral := 6000, range := 1905 }
  else
    c

/-- `Usc.fixSettings`: truncate or pad the channel-settings sequence to
`servoCount` entries (with a warning each way), normalize `Input`/`Output`
channels, and clamp a serial device number ≥ 128 to 12 (with a warning).
Returns the fixed settings and the warnings, in emission order. -/
def fixSettings (micro : Bool) (servoCount : Nat) (s : UscSettings) :
    UscSettings × List FixWarning :=
  let warnings : List FixWarning := []
  let n := s.channelSettings.length
  let (cs, warnings) :=
    if n > servoCount then
      (s.channelSettings.take servoCount,
       warnings ++ [.extraChannels n servoCount])
    else
      (s.channelSettings, warnings)
  let (cs, warnings) :=
    if cs.length < servoCount then
      (padChannels micro s.servosAvailable servoCount cs,
       warnings ++ [.missingChannels cs.length servoCount])
    else
      (cs, warnings)
  let cs := cs.map fixChannelSetting
  let (num, warnings) :=
    if s.serialDeviceNumber ≥ 128 then
      (12, warnings ++ [.serialDeviceNumberClamped])
    else
      (s.serialDeviceNumber, warnings)
  ({ s with channelSettings := cs, serialDeviceNumber := num }, warnings)

/-! ## Channel-mode encoding inside `Usc.setUscSettings`. -/

/-- The Micro Maestro branch of the per-channel loop in
`Usc.setUscSettings`: accumulate `ioMask` (bit set for `Input` or
`Output` channels) and `outputMask` (bit set for `Output` channels) at
bit index `channelToPort i`; `none` when `channelToPort` raises. -/
def computeMasksAux : List ChannelMode → Nat → Nat → Nat → Option (Nat × Nat)
  | [], _, ioMask, outputMask => some (ioMask, outputMask)
  | m :: rest, i, ioMask, outputMask =>
      match channelToPort i with
      | none => none
      | some port =>
          let ioMask' :=
            if m = ChannelMode.Input ∨ m = ChannelMode.Output then
              ioMask ||| (1 <<< port)
            else ioMask
          let outputMask' :=
            if m = ChannelMode.Output then
              outputMask ||| (1 <<< port)
            else outputMask
          computeMasksAux rest (i + 1) ioMask' outputMask'

/-- `ioMask` and `outputMask` for a full channel-mode list (Micro Maestro
channel-mode encoding), starting from cleared masks. -/
def computeMasks (modes : List ChannelMode) : Option (Nat × Nat) :=
  computeMasksAux modes 0 0 0

/-- The Mini Maestro branch of the per-channel loop:
`channelModeBytes[i >> 2] |= mode << ((i & 3) << 1)` over six bytes
initialized to zero. -/
def channelModeBytesAux : List ChannelMode → Nat → List Nat → List Nat
  | [], _, bytes => bytes
  | m :: rest, i, bytes =>
      channelModeBytesAux rest (i + 1)
        (bytes.set (i >>> 2)
          ((bytes.getD (i >>> 2) 0) ||| (m.toNat <<< ((i &&& 3) <<< 1))))

/-- The six packed channel-mode bytes for a channel-mode list. -/
def channelModeBytes (modes : List ChannelMode) : List Nat :=
  channelModeBytesAux modes 0 (List.replicate 6 0)

/-! ## Control-transfer traces.

`Usc.setUscSettings` and `Usc.loadProgram` issue one blocking control
transfer per step; an exception aborts the remaining steps but not the
transfers already issued.  The embedding computes the list of issued
transfers together with the error, if any, that aborted the operation. -/

/-- One USB control transfer, as issued by the operations under study. -/
inductive Transfer where
  | setParameter (parameter : Nat) (value : Int)
  | scriptDoneTransfer (value : Nat)
  | eraseScript
  | writeScriptBlock (block : Nat) (bytes : List Nat)
  | reinitDevice
  | readVariables
deriving DecidableEq, Repr

/-- Errors raised by the operations under study (Python exceptions). -/
inductive UscError where
  | outOfRange (parameter : Nat) (value : Int)
  | unknownParameter (parameter : Nat)
  | scriptTooLong (length : Nat)
deriving DecidableEq, Repr

/-- A trace: the transfers issued, and the error that aborted the
operation (`none` when it completed). -/
abbrev Trace := List Transfer × Option UscError

/-- Sequential composition of traces: an error in the first part
suppresses the second entirely. -/
def seqT (a b : Trace) : Trace :=
  match a.2 with
  | some e => (a.1, some e)
  | none => (a.1 ++ b.1, b.2)

/-- `Usc._setRawParameter`: look up the parameter's range, require the
value to lie within it (`Usc.requireArgumentRange`), then issue exactly
one `SET_PARAMETER` transfer. -/
def setRawParameterT (parameter : Nat) (value : Int) : Trace :=
  match getRange parameter with
  | none => ([], some (.unknownParameter parameter))
  | some r =>
      if value < (r.minimumValue : Int) ∨ (r.maximumValue : Int) < value then
        ([], some (.outOfRange parameter value))
      else
        ([.setParameter parameter value], none)

/-- Run an ordered list of raw parameter writes, each validated
immediately before its own transfer. -/
def runParamWrites : List (Nat × Int) → Trace
  | [] => ([], none)
  | (p, v) :: rest => seqT (setRawParameterT p v) (runParamWrites rest)

/-- The device-wide parameter writes at the head of `Usc.setUscSettings`,
in source order. -/
def deviceParamWrites (micro : Bool) (servoCount : Nat) (s : UscSettings) :
    List (Nat × Int) :=
  [(3, (s.serialMode : Int)),
   (4, convertBpsToSpbrg s.fixedBaudRate),
   (8, (s.enableCrc.toNat : Int)),
   (9, (s.neverSuspend.toNat : Int)),
   (10, (s.serialDeviceNumber : Int)),
   (25, (s.miniSscOffset : Int)),
   (6, (s.serialTimeout : Int)),
   (24, (s.scriptDone.toNat : Int))]
  ++ (if micro then
        [(1, (s.servosAvailable : Int)), (2, (s.servoPeriod : Int))]
      else
        [(18, Int.ofNat (s.miniMaestroServoPeriod &&& 0xFF)),
         (19, Int.ofNat (s.miniMaestroServoPeriod >>> 8)),
         (26, ((if s.servoMultiplier < 1 then 0
                else if s.servoMultiplier > 256 then 255
                else s.servoMultiplier - 1 : Nat) : Int))])
  ++ (if servoCount > 18 then [(21, (s.enablePullups.toNat : Int))] else [])

/-- The seven per-servo parameter writes for channel `i`, in source
order: home (with the `Input`-forces-`Ignore` correction), minimum / 64,
maximum / 64, neutral, range / 127, exponential speed, acceleration. -/
def channelParamWrites (i : Nat) (c : ChannelSetting) : List (Nat × Int) :=
  [(specifyServo PARAMETER_SERVO0_HOME i,
      ((encodeHome c.mode c.homeMode c.home : Nat) : Int)),
   (specifyServo PARAMETER_SERVO0_MIN i, ((c.minimum / 64 : Nat) : Int)),
   (specifyServo PARAMETER_SERVO0_MAX i, ((c.maximum / 64 : Nat) : Int)),
   (specifyServo PARAMETER_SERVO0_NEUTRAL i, ((c.neutral : Nat) : Int)),
   (specifyServo PARAMETER_SERVO0_RANGE i, ((c.range / 127 : Nat) : Int)),
   (specifyServo PARAMETER_SERVO0_SPEED i,
      ((normalSpeedToExponentialSpeed c.speed : Nat) : Int)),
   (specifyServo PARAMETER_SERVO0_ACCELERATION i, ((c.acceleration : Nat) : Int))]

/-- The channel modes `Usc.setUscSettings` reads from a settings object
(channel `i` of the per-channel loop). -/
def settingsModes (servoCount : Nat) (s : UscSettings) : List ChannelMode :=
  (List.range servoCount).map (fun i => (s.channelSettings.getD i {}).mode)

/-- The full ordered raw-parameter write plan of `Usc.setUscSettings`
(without a script upload): device-wide writes, then the per-channel
writes, then the channel-mode encoding (masks on the Micro Maestro,
six packed bytes on the Mini Maestro).  `none` when `channelToPort`
raises inside the mask accumulation, which cannot happen on a real
Micro Maestro (`servoCount = 6`). -/
def setUscSettingsParamWrites (micro : Bool) (servoCount : Nat)
    (s : UscSettings) : Option (List (Nat × Int)) :=
  let chanWrites :=
    (List.range servoCount).flatMap
      (fun i => channelParamWrites i (s.channelSettings.getD i {}))
  let tailWrites : Option (List (Nat × Int)) :=
    if micro then
      (computeMasks (settingsModes servoCount s)).map
        (fun mm => [(16, (mm.1 : Int)), (17, (mm.2 : Int))])
    else
      some ((List.range 6).map
        (fun i => (12 + i, ((channelModeBytes (settingsModes servoCount s)).getD i 0 : Int))))
  tailWrites.map
    (fun tw => deviceParamWrites micro servoCount s ++ chanWrites ++ tw)

/-- The trace of `Usc.setUscSettings` with `newScript = False`: the write
plan run in order, each value validated immediately before its own
transfer. -/
def setUscSettingsTrace (micro : Bool) (servoCount : Nat)
    (s : UscSettings) : Option Trace :=
  (setUscSettingsParamWrites micro servoCount s).map runParamWrites

/-- The 16-byte block transfers of `Usc.writeScript`: consecutive blocks
of the byte code, the final block padded with 0xFF. -/
def writeScriptBlocks (bytecode : List Nat) : List Transfer :=
  (List.range ((bytecode.length + 15) / 16)).map
    (fun block => .writeScriptBlock block
      ((List.range 16).map
        (fun j =>
          if block * 16 + j < bytecode.length then bytecode.getD (block * 16 + j) 0
          else 0xFF)))

/-- The sixteen block transfers of `Usc.setSubroutines`, written at the
variant's block offset (64 on the Micro Maestro, 512 otherwise). -/
def subroutineWriteBlocks (offsetBlocks : Nat)
    (subs : List (String × Nat × SubCommand)) : List Transfer :=
  (List.range 16).map
    (fun block => .writeScriptBlock (block + offsetBlocks)
      ((List.range 16).map
        (fun j => (setSubroutinesData subs).getD (block * 16 + j) 0)))

/-- `Usc._reinitialize`: the REINITIALIZE transfer, followed on the Mini
Maestro by a variable read (the settle `time.sleep` issues no transfer). -/
def reinitTrace (micro : Bool) : Trace :=
  ([Transfer.reinitDevice] ++ (if micro then [] else [.readVariables]), none)

/-- The trace of `Usc.loadProgram`: a script-done transfer first, then
the length validation, then erase, subroutine table, script blocks, the
optional CRC parameter write, and reinitialization. -/
def loadProgramTrace (micro : Bool) (maxScriptLength offsetBlocks : Nat)
    (p : Program) (withCrc : Bool) : Trace :=
  seqT ([Transfer.scriptDoneTransfer 1], none) <|
    match loadProgramByteList maxScriptLength p.byteCode with
    | none => ([], some (.scriptTooLong p.byteCode.length))
    | some byteList =>
        seqT ([Transfer.eraseScript]
                ++ subroutineWriteBlocks offsetBlocks p.subroutines
                ++ writeScriptBlocks byteList, none) <|
          seqT (if withCrc then setRawParameterT 22 (p.crc : Int) else ([], none))
            (reinitTrace micro)

/-! ## Status-buffer decoders (`protocol.py` structs,
`Usc._getVariableMicroMaestro`).

`struct.unpack` of the little-endian formats is embedded as explicit
byte-offset extraction from the raw buffer (a list of bytes). -/

/-- The byte at offset `i` of a raw buffer. -/
def byteAt (b : List Nat) (i : Nat) : Nat :=
  b.getD i 0

/-- Little-endian unsigned 16-bit value at offset `i` (format `H`). -/
def u16le (b : List Nat) (i : Nat) : Nat :=
  byteAt b i + 256 * byteAt b (i + 1)

/-- Little-endian signed 16-bit value at offset `i` (format `h`). -/
def i16le (b : List Nat) (i : Nat) : Int :=
  let v := u16le b i
  if v < 32768 then (v : Int) else (v : Int) - 65536

/-- `ServoStatus` (`protocol.py`): format `<HHHB` — 2-byte position,
2-byte target, 2-byte speed, 1-byte acceleration; 7 bytes. -/
structure ServoStatus where
  position : Nat
  target : Nat
  speed : Nat
  acceleration : Nat
deriving DecidableEq, Repr

/-- Size in bytes of one packed `ServoStatus` record. -/
def servoStatusSize : Nat := 7

/-- Decode one packed `ServoStatus` record. -/
def ServoStatus.decode (b : List Nat) : ServoStatus :=
  { position := u16le b 0
    target := u16le b 2
    speed := u16le b 4
    acceleration := byteAt b 6 }

/-- `MicroMaestroVariables` (`protocol.py`): format `<BBH3h32h10HBB` —
1-byte stack pointer, 1-byte call-stack pointer, 2-byte error flags,
three reserved signed 16-bit slots (`buffer`), 32 signed 16-bit stack
slots, 10 unsigned 16-bit call-stack slots, 1-byte script-done flag and
one reserved byte (`buffer2`); 96 bytes. -/
structure MicroMaestroVariables where
  stackPointer : Nat
  callStackPointer : Nat
  errors : Nat
  buffer : List Int
  stack : List Int
  callStack : List Nat
  scriptDone : Nat
  buffer2 : Nat
deriving DecidableEq, Repr

/-- Size in bytes of one packed `MicroMaestroVariables` record
(`struct.Struct('<BBH3h32h10HBB').size`). -/
def microMaestroVariablesSize : Nat := 96

/-- Decode one packed `MicroMaestroVariables` record. -/
def MicroMaestroVariables.decode (b : List Nat) : MicroMaestroVariables :=
  { stackPointer := byteAt b 0
    callStackPointer := byteAt b 1
    errors := u16le b 2
    buffer := (List.range 3).map (fun i => i16le b (4 + 2 * i))
    stack := (List.range 32).map (fun i => i16le b (10 + 2 * i))
    callStack := (List.range 10).map (fun i => u16le b (74 + 2 * i))
    scriptDone := byteAt b 94
    buffer2 := byteAt b 95 }

/-- `Usc._getVariableMicroMaestro`: one combined read of
`96 + 7 * servoCount` bytes, split into the variables record and one
7-byte `ServoStatus` record per channel. -/
def getVariableMicroMaestro (servoCount : Nat) (packed : List Nat) :
    MicroMaestroVariables × List ServoStatus :=
  let varPacked := packed.take microMaestroVariablesSize
  let servoPacked := packed.drop microMaestroVariablesSize
  (MicroMaestroVariables.decode varPacked,
   (List.range servoCount).map
     (fun i => ServoStatus.decode ((servoPacked.drop (servoStatusSize * i)).take servoStatusSize)))

/-- The layout claimed by the specification for the combined Micro
Maestro status buffer, stated in the spec's words: stack pointer, call
stack pointer, 2-byte error flags, **3 reserved bytes**, then the 32
signed 16-bit stack slots (at offset 7), the 10 unsigned 16-bit
call-stack slots (at offset 71), the script-done flag (offset 91) and one
reserved byte (offset 92), for a 93-byte variables record.  Used only to
compare the claimed layout against the source layout. -/
def specClaimMicroVariables (b : List Nat) : MicroMaestroVariables :=
  { stackPointer := byteAt b 0
    callStackPointer := byteAt b 1
    errors := u16le b 2
    buffer := [(byteAt b 4 : Int), (byteAt b 5 : Int), (byteAt b 6 : Int)]
    stack := (List.range 32).map (fun i => i16le b (7 + 2 * i))
    callStack := (List.range 10).map (fun i => u16le b (71 + 2 * i))
    scriptDone := byteAt b 91
    buffer2 := byteAt b 92 }

/-! ## Helper lemmas -/

/-- One unfolding of the padding loop. -/
lemma padChannels_length (micro : Bool) (a sc : Nat) :
    ∀ n cs, sc - cs.length ≤ n →
      (padChannels micro a sc cs).length = max sc cs.length := by
  intro n
  induction n with
  | zero =>
      intro cs h
      rw [padChannels]
      have hns : ¬ cs.length < sc := by omega
      simp only [hns, if_false]
      omega
  | succ n ih =>
      intro cs h
      rw [padChannels]
      by_cases hlt : cs.length < sc
      · simp only [hlt, if_true]
        rw [ih]
        · simp only [List.length_append, List.length_singleton]
          omega
        · simp only [List.length_append, List.length_singleton]
          omega
      · simp only [hlt, if_false]
        omega

/-! ## Claim C4 — script terminator -/

/-- C4: a compiled program strictly shorter than `maxScriptLength` gets
exactly one terminator ("quit") opcode appended immediately after the
last instruction; a program of length exactly `maxScriptLength` gets no
terminator; a longer program fails the upload with the script-too-long
validation error. -/
theorem c4_script_terminator (micro withCrc : Bool)
    (maxScriptLength offsetBlocks : Nat) (p : Program) :
    (p.byteCode.length < maxScriptLength →
      loadProgramByteList maxScriptLength p.byteCode = some (p.byteCode ++ [OpcodeQUIT]))
    ∧ (p.byteCode.length = maxScriptLength →
      loadProgramByteList maxScriptLength p.byteCode = some p.byteCode)
    ∧ (p.byteCode.length > maxScriptLength →
      (loadProgramTrace micro maxScriptLength offsetBlocks p withCrc).2 =
        some (.scriptTooLong p.byteCode.length)) := by
  refine ⟨fun h => ?_, fun h => ?_, fun h => ?_⟩
  · rw [loadProgramByteList, if_neg (by omega), if_pos h]
  · rw [loadProgramByteList, if_neg (by omega), if_neg (by omega)]
  · rw [loadProgramTrace, loadProgramByteList, if_pos h]
    rfl

/-- Witness for C4 at `maxScriptLength = 4`: a 3-byte program gets one
terminator, a 4-byte program gets none, a 5-byte program errors. -/
theorem c4_script_terminator_witness :
    loadProgramByteList 4 [1, 2, 3] = some [1, 2, 3, OpcodeQUIT]
    ∧ loadProgramByteList 4 [1, 2, 3, 4] = some [1, 2, 3, 4]
    ∧ (loadProgramTrace true 4 64 ⟨[1, 2, 3, 4, 5], [], 0⟩ false).2 =
        some (.scriptTooLong 5) :=
  ⟨(c4_script_terminator true false 4 64 ⟨[1, 2, 3], [], 0⟩).1 (by decide),
   (c4_script_terminator true false 4 64 ⟨[1, 2, 3, 4], [], 0⟩).2.1 (by decide),
   (c4_script_terminator true false 4 64 ⟨[1, 2, 3, 4, 5], [], 0⟩).2.2 (by decide)⟩

/-! ## Claim C5 — home codec -/

/-- C5: home encoding maps `Off` to raw 0, `Ignore` to raw 1 and `Goto`
to the stored home position (which, within the device range [2, 32440],
is never 0 or 1); an `Input` channel's home mode is forced to `Ignore`
(raw 1) regardless of the stored value; decoding maps raw 0 to
`(Off, 0)`, raw 1 to `(Ignore, 0)` and any raw v ≥ 2 to `(Goto, v)`. -/
theorem c5_home_codec (mode : ChannelMode) (homeMode : HomeMode) (home v : Nat) :
    (mode ≠ ChannelMode.Input →
      encodeHome mode HomeMode.Off home = 0
      ∧ encodeHome mode HomeMode.Ignore home = 1
      ∧ encodeHome mode HomeMode.Goto home = home)
    ∧ encodeHome ChannelMode.Input homeMode home = 1
    ∧ (mode ≠ ChannelMode.Input → 2 ≤ home → home ≤ 32440 →
        encodeHome mode HomeMode.Goto home ≠ 0
        ∧ encodeHome mode HomeMode.Goto home ≠ 1)
    ∧ decodeHome 0 = (HomeMode.Off, 0)
    ∧ decodeHome 1 = (HomeMode.Ignore, 0)
    ∧ (2 ≤ v → decodeHome v = (HomeMode.Goto, v)) := by
  refine ⟨fun hm => ⟨?_, ?_, ?_⟩, ?_, fun hm h2 _ => ⟨?_, ?_⟩, rfl, rfl, fun h2 => ?_⟩
  · simp [encodeHome, hm]
  · simp [encodeHome, hm]
  · simp [encodeHome, hm]
  · cases homeMode <;> simp [encodeHome]
  · simp [encodeHome, hm]; omega
  · simp [encodeHome, hm]; omega
  · rw [decodeHome, if_neg (by omega), if_neg (by omega)]

/-- Witness for C5 at a `Servo` channel with home 6000 and raw 6000. -/
theorem c5_home_codec_witness :
    encodeHome ChannelMode.Servo HomeMode.Goto 6000 = 6000
    ∧ encodeHome ChannelMode.Servo HomeMode.Goto 6000 ≠ 0
    ∧ decodeHome 6000 = (HomeMode.Goto, 6000) :=
  ⟨((c5_home_codec ChannelMode.Servo HomeMode.Off 6000 6000).1 (by decide)).2.2,
   (((c5_home_codec ChannelMode.Servo HomeMode.Off 6000 6000).2.2.1
      (by decide) (by norm_num) (by norm_num)).1),
   ((c5_home_codec ChannelMode.Servo HomeMode.Off 6000 6000).2.2.2.2.2 (by norm_num))⟩

/-! ## Claim C7 — fixed-baud-rate transform -/

/-- C7 counterexample: at bps = 9 the source truncates
`(12000000 - 9/2) / 9 = 1333332.8…` to 1333332, while the claimed
formula `round(…)` yields 1333333. -/
theorem c7_round_counterexample :
    convertBpsToSpbrg 9 = 1333332
    ∧ round (((12000000 : ℚ) - (9 : ℚ) / 2) / (9 : ℚ)) = 1333333
    ∧ (1333332 : ℤ) ≠ 1333333 := by
  refine ⟨?_, ?_, by decide⟩
  · rw [convertBpsToSpbrg, if_neg (by norm_num), ratTruncToInt, INSTRUCTION_FREQUENCY]
    rw [if_pos (by norm_num), Int.floor_eq_iff]
    norm_num
  · rw [round_eq, Int.floor_eq_iff]
    norm_num

/-- C7 amended: the fixed-baud-rate transform truncates rather than
rounds — `spbrg = ⌊(12000000 - bps/2) / bps⌋` for every nonzero
bps ≤ 24000000, and the autodetect sentinel 0 is the identity in both
directions. -/
theorem c7_baud_conversion (bps : Nat) (h0 : bps ≠ 0) (hle : bps ≤ 24000000) :
    convertBpsToSpbrg bps = ⌊((12000000 : ℚ) - (bps : ℚ) / 2) / (bps : ℚ)⌋
    ∧ convertBpsToSpbrg 0 = 0
    ∧ convertSpbrgToBps 0 = 0 := by
  refine ⟨?_, rfl, rfl⟩
  have hq : (0 : ℚ) < (bps : ℚ) := by
    exact_mod_cast Nat.pos_of_ne_zero h0
  have hcast : (bps : ℚ) ≤ 24000000 := by
    exact_mod_cast hle
  have hnum : (0 : ℚ) ≤ (12000000 : ℚ) - (bps : ℚ) / 2 := by linarith
  rw [convertBpsToSpbrg, if_neg h0, ratTruncToInt, INSTRUCTION_FREQUENCY]
  push_cast
  rw [if_pos (div_nonneg hnum (le_of_lt hq))]

/-- Witness for C7 at bps = 9600. -/
theorem c7_baud_conversion_witness :
    convertBpsToSpbrg 9600 = ⌊((12000000 : ℚ) - (9600 : ℚ) / 2) / (9600 : ℚ)⌋
    ∧ convertBpsToSpbrg 0 = 0
    ∧ convertSpbrgToBps 0 = 0 :=
  c7_baud_conversion 9600 (by norm_num) (by norm_num)

/-! ## Claim C8 — settings reconciliation -/

/-- C8 counterexample: an input with exactly `servoCount` channel
entries but serial device number 200 yields a non-empty diagnostics list
although neither truncation nor padding occurred. -/
theorem c8_diagnostics_counterexample :
    (fixSettings true 6
      { serialDeviceNumber := 200, channelSettings := List.replicate 6 {} }).2 =
        [FixWarning.serialDeviceNumberClamped]
    ∧ ({ serialDeviceNumber := 200, channelSettings := List.replicate 6 {} } :
        UscSettings).channelSettings.length = 6
    ∧ [FixWarning.serialDeviceNumberClamped] ≠ ([] : List FixWarning) := by
  refine ⟨by decide, by decide, by simp⟩

/-- C8 amended: `fixSettings` always returns exactly `servoCount` channel
entries (truncating when longer, padding when shorter), and the
diagnostics list is non-empty iff truncation, padding, or the
serial-device-number clamp (serial device number ≥ 128) occurred. -/
theorem c8_fix_settings (micro : Bool) (servoCount : Nat) (s : UscSettings) :
    (fixSettings micro servoCount s).1.channelSettings.length = servoCount
    ∧ ((fixSettings micro servoCount s).2 ≠ [] ↔
        (s.channelSettings.length ≠ servoCount ∨ 128 ≤ s.serialDeviceNumber)) := by
  by_cases h1 : s.channelSettings.length > servoCount
  · have hlen : (s.channelSettings.take servoCount).length = servoCount := by
      simp [List.length_take]
      omega
    by_cases h3 : 128 ≤ s.serialDeviceNumber
    · simp [fixSettings, h1, hlen, h3]
      omega
    · simp [fixSettings, h1, hlen, h3]
      omega
  · by_cases h2 : s.channelSettings.length < servoCount
    · have hlen := padChannels_length micro s.servosAvailable servoCount
        (servoCount - s.channelSettings.length) s.channelSettings (by omega)
      by_cases h3 : 128 ≤ s.serialDeviceNumber
      · simp [fixSettings, h1, h2, h3, hlen]
        omega
      · simp [fixSettings, h1, h2, h3, hlen]
        omega
    · have heq : s.channelSettings.length = servoCount := by omega
      by_cases h3 : 128 ≤ s.serialDeviceNumber
      · simp [fixSettings, h1, h2, h3, heq]
      · simp [fixSettings, h1, h2, h3, heq]

/-! ## Claim C2 — subroutine address table -/

lemma getD_set_self {α : Type} (l : List α) (i : Nat) (a d : α) (h : i < l.length) :
    (l.set i a).getD i d = a := by
  simp [List.getD_eq_getElem?_getD, List.getElem?_set_self h]

lemma getD_set_ne {α : Type} (l : List α) {i j : Nat} (h : i ≠ j) (a d : α) :
    (l.set i a).getD j d = l.getD j d := by
  simp [List.getD_eq_getElem?_getD, List.getElem?_set_ne h]

lemma setSubroutinesFoldl_length (subs : List (String × Nat × SubCommand)) :
    ∀ data, (subs.foldl setSubroutinesStep data).length = data.length := by
  induction subs with
  | nil => intro data; rfl
  | cons s rest ih =>
      intro data
      rw [List.foldl_cons, ih]
      cases hc : s.2.2 <;> simp [setSubroutinesStep, hc]

lemma setSubroutinesFoldl_untouched (subs : List (String × Nat × SubCommand)) :
    ∀ data i d,
      (∀ sub ∈ subs, ∀ c, sub.2.2 = SubCommand.opcode c →
        i ≠ 2 * (c - 128) ∧ i ≠ 2 * (c - 128) + 1) →
      (subs.foldl setSubroutinesStep data).getD i d = data.getD i d := by
  induction subs with
  | nil => intro data i d _; rfl
  | cons s rest ih =>
      intro data i d h
      rw [List.foldl_cons]
      rw [ih _ _ _ (fun sub hs => h sub (List.mem_cons_of_mem s hs))]
      cases hc : s.2.2 with
      | call => simp [setSubroutinesStep, hc]
      | opcode c =>
          have hi := h s (List.mem_cons_self s rest) c hc
          simp only [setSubroutinesStep, hc]
          rw [getD_set_ne _ (fun he => hi.2 he.symm),
            getD_set_ne _ (fun he => hi.1 he.symm)]

lemma setSubroutinesFoldl_touched (subs : List (String × Nat × SubCommand)) :
    ∀ data, data.length = 256 →
      (∀ sub ∈ subs, ∀ c, sub.2.2 = SubCommand.opcode c → 128 ≤ c ∧ c ≤ 255) →
      (subOpcodes subs).Nodup →
      ∀ sub ∈ subs, ∀ c, sub.2.2 = SubCommand.opcode c →
        (subs.foldl setSubroutinesStep data).getD (2 * (c - 128)) 0 = sub.2.1 % 256
        ∧ (subs.foldl setSubroutinesStep data).getD (2 * (c - 128) + 1) 0 = sub.2.1 >>> 8 := by
  induction subs with
  | nil => intro _ _ _ _ sub hs; exact absurd hs (List.not_mem_nil sub)
  | cons s rest ih =>
      intro data hlen hbound hdist sub hs c hc
      rcases List.mem_cons.mp hs with rfl | hmem
      · -- the head subroutine writes its two bytes; the tail leaves them
        rw [List.foldl_cons]
        have hb := hbound sub (List.mem_cons_self sub rest) c hc
        have hrest : ∀ sub2 ∈ rest, ∀ c2, sub2.2.2 = SubCommand.opcode c2 →
            (2 * (c - 128) ≠ 2 * (c2 - 128) ∧ 2 * (c - 128) ≠ 2 * (c2 - 128) + 1)
            ∧ (2 * (c - 128) + 1 ≠ 2 * (c2 - 128) ∧ 2 * (c - 128) + 1 ≠ 2 * (c2 - 128) + 1) := by
          intro sub2 hs2 c2 hc2
          have hb2 := hbound sub2 (List.mem_cons_of_mem sub hs2) c2 hc2
          have hne : c ≠ c2 := by
            intro he
            have : (subOpcodes (sub :: rest)) = c :: subOpcodes rest := by
              simp [subOpcodes, hc]
            rw [this] at hdist
            have hcm : c2 ∈ subOpcodes rest := by
              simp only [subOpcodes, List.mem_filterMap]
              exact ⟨sub2, hs2, by rw [hc2]⟩
            exact (List.nodup_cons.mp hdist).1 (he ▸ hcm)
          omega
        have h1 : (rest.foldl setSubroutinesStep (setSubroutinesStep data sub)).getD
            (2 * (c - 128)) 0 = (setSubroutinesStep data sub).getD (2 * (c - 128)) 0 :=
          setSubroutinesFoldl_untouched rest _ _ _
            (fun sub2 hs2 c2 hc2 => (hrest sub2 hs2 c2 hc2).1)
        have h2 : (rest.foldl setSubroutinesStep (setSubroutinesStep data sub)).getD
            (2 * (c - 128) + 1) 0 = (setSubroutinesStep data sub).getD (2 * (c - 128) + 1) 0 :=
          setSubroutinesFoldl_untouched rest _ _ _
            (fun sub2 hs2 c2 hc2 => (hrest sub2 hs2 c2 hc2).2)
        rw [h1, h2]
        simp only [setSubroutinesStep, hc]
        constructor
        · rw [getD_set_ne _ (by omega), getD_set_self]
          omega
        · rw [getD_set_self]
          rw [List.length_set]
          omega
      · -- the subroutine lives in the tail
        rw [List.foldl_cons]
        refine ih (setSubroutinesStep data s) ?_ ?_ ?_ sub hmem c hc
        · rw [show (setSubroutinesStep data s).length = data.length by
            cases hcs : s.2.2 <;> simp [setSubroutinesStep, hcs], hlen]
        · exact fun sub2 hs2 => hbound sub2 (List.mem_cons_of_mem s hs2)
        · cases hcs : s.2.2 with
          | call =>
              have : subOpcodes (s :: rest) = subOpcodes rest := by
                simp [subOpcodes, hcs]
              rwa [this] at hdist
          | opcode c0 =>
              have : subOpcodes (s :: rest) = c0 :: subOpcodes rest := by
                simp [subOpcodes, hcs]
              rw [this] at hdist
              exact (List.nodup_cons.mp hdist).2

/-- C2: the subroutine address table is exactly 256 bytes; for each named
subroutine whose command is a concrete opcode (not the indirect-call-only
`CALL` marker), the little-endian 16-bit address is written at byte offset
`2 * (opcode - 128)`; every byte not covered by such a subroutine — in
particular every slot of a `CALL`-marked subroutine — keeps the sentinel
0xFF.  Opcode bindings are assumed pairwise distinct and in the device's
opcode byte range [128, 255]. -/
theorem c2_subroutine_table (subs : List (String × Nat × SubCommand))
    (hbound : ∀ sub ∈ subs, ∀ c, sub.2.2 = SubCommand.opcode c → 128 ≤ c ∧ c ≤ 255)
    (hdist : (subOpcodes subs).Nodup) :
    (setSubroutinesData subs).length = 256
    ∧ (∀ sub ∈ subs, ∀ c, sub.2.2 = SubCommand.opcode c →
        (setSubroutinesData subs).getD (2 * (c - 128)) 0 = sub.2.1 % 256
        ∧ (setSubroutinesData subs).getD (2 * (c - 128) + 1) 0 = sub.2.1 >>> 8)
    ∧ (∀ i < 256, (∀ sub ∈ subs, ∀ c, sub.2.2 = SubCommand.opcode c →
          i ≠ 2 * (c - 128) ∧ i ≠ 2 * (c - 128) + 1) →
        (setSubroutinesData subs).getD i 0 = 0xFF) := by
  refine ⟨?_, ?_, ?_⟩
  · rw [setSubroutinesData, setSubroutinesFoldl_length, List.length_replicate]
  · intro sub hs c hc
    rw [setSubroutinesData]
    exact setSubroutinesFoldl_touched subs (List.replicate 256 0xFF)
      (List.length_replicate 256 0xFF) hbound hdist sub hs c hc
  · intro i hi huntouched
    rw [setSubroutinesData, setSubroutinesFoldl_untouched subs _ i 0 huntouched,
      List.getD_eq_getElem?_getD, List.getElem?_replicate_of_lt hi]
    rfl

/-- Witness for C2, the spec scenario: subroutine "foo" at address 300
bound to opcode 130 yields bytes 0x2C, 0x01 at offsets 4 and 5, a
256-byte table, and the sentinel elsewhere (offset 0 shown). -/
theorem c2_subroutine_table_witness :
    (setSubroutinesData [("foo", 300, SubCommand.opcode 130)]).getD 4 0 = 0x2C
    ∧ (setSubroutinesData [("foo", 300, SubCommand.opcode 130)]).getD 5 0 = 0x01
    ∧ (setSubroutinesData [("foo", 300, SubCommand.opcode 130)]).length = 256
    ∧ (setSubroutinesData [("foo", 300, SubCommand.opcode 130)]).getD 0 0 = 0xFF := by
  have hbound : ∀ sub ∈ [("foo", 300, SubCommand.opcode 130)], ∀ c,
      sub.2.2 = SubCommand.opcode c → 128 ≤ c ∧ c ≤ 255 := by
    intro sub hs c hc
    rw [List.mem_singleton.mp hs] at hc
    cases hc
    omega
  have h := c2_subroutine_table [("foo", 300, SubCommand.opcode 130)] hbound (by decide)
  have hmain := h.2.1 ("foo", 300, SubCommand.opcode 130) (List.mem_singleton.mpr rfl) 130 rfl
  refine ⟨hmain.1, hmain.2, h.1, ?_⟩
  refine h.2.2 0 (by norm_num) ?_
  intro sub hs c hc
  rw [List.mem_singleton.mp hs] at hc
  cases hc
  omega

/-! ## Claim C6 — channel-to-port mapping and mode masks -/

lemma channelToPort_isSome_of_lt (i : Nat) (h : i < 6) :
    ∃ port, channelToPort i = some port := by
  rw [channelToPort]
  by_cases h3 : i ≤ 3
  · rw [if_pos h3]; exact ⟨i, rfl⟩
  · rw [if_neg h3, if_pos h]; exact ⟨i + 2, rfl⟩

lemma channelToPort_eq {a pa : Nat} (ha : channelToPort a = some pa) :
    (a ≤ 3 ∧ pa = a) ∨ (3 < a ∧ a < 6 ∧ pa = a + 2) := by
  rw [channelToPort] at ha
  by_cases h3 : a ≤ 3
  · rw [if_pos h3] at ha
    exact Or.inl ⟨h3, (Option.some_inj.mp ha).symm⟩
  · rw [if_neg h3] at ha
    by_cases h6 : a < 6
    · rw [if_pos h6] at ha
      exact Or.inr ⟨by omega, h6, (Option.some_inj.mp ha).symm⟩
    · rw [if_neg h6] at ha
      cases ha

lemma channelToPort_injOn {a b pa pb : Nat} (ha : channelToPort a = some pa)
    (hb : channelToPort b = some pb) (hp : pa = pb) : a = b := by
  rcases channelToPort_eq ha with ⟨h1, h2⟩ | ⟨h1, h2, h3⟩ <;>
    rcases channelToPort_eq hb with ⟨g1, g2⟩ | ⟨g1, g2, g3⟩ <;> omega

lemma testBit_or_shiftLeft_one (x port p : Nat) :
    (x ||| (1 <<< port)).testBit p = (x.testBit p || decide (port = p)) := by
  rw [Nat.testBit_or, Nat.one_shiftLeft, Nat.testBit_two_pow]

lemma computeMasksAux_spec (modes : List ChannelMode) :
    ∀ i io outp, i + modes.length ≤ 6 →
      ∃ mm, computeMasksAux modes i io outp = some mm
        ∧ (∀ p, mm.1.testBit p ↔ (io.testBit p ∨ ∃ j, j < modes.length
            ∧ channelToPort (i + j) = some p
            ∧ (modes.getD j .Servo = ChannelMode.Input ∨ modes.getD j .Servo = ChannelMode.Output)))
        ∧ (∀ p, mm.2.testBit p ↔ (outp.testBit p ∨ ∃ j, j < modes.length
            ∧ channelToPort (i + j) = some p
            ∧ modes.getD j .Servo = ChannelMode.Output)) := by
  induction modes with
  | nil =>
      intro i io outp _
      refine ⟨(io, outp), rfl, fun p => ?_, fun p => ?_⟩ <;> simp
  | cons m rest ih =>
      intro i io outp hle
      obtain ⟨port, hport⟩ := channelToPort_isSome_of_lt i (by simp at hle; omega)
      have hle' : (i + 1) + rest.length ≤ 6 := by simp at hle; omega
      set io' := if m = ChannelMode.Input ∨ m = ChannelMode.Output
        then io ||| (1 <<< port) else io with hio'
      set outp' := if m = ChannelMode.Output then outp ||| (1 <<< port) else outp with houtp'
      obtain ⟨mm, hmm, hio, houtp⟩ := ih (i + 1) io' outp' hle'
      have hstep : computeMasksAux (m :: rest) i io outp = some mm := by
        rw [computeMasksAux, hport]
        exact hmm
      refine ⟨mm, hstep, fun p => ?_, fun p => ?_⟩
      · rw [hio p]
        constructor
        · rintro (hbit | ⟨j, hj, hcj, hmj⟩)
          · rw [hio'] at hbit
            by_cases hm : m = ChannelMode.Input ∨ m = ChannelMode.Output
            · rw [if_pos hm, testBit_or_shiftLeft_one] at hbit
              rcases Bool.or_eq_true_iff.mp hbit with hb | hb
              · exact Or.inl hb
              · refine Or.inr ⟨0, by simp, ?_, by simpa using hm⟩
                rw [Nat.add_zero, hport, of_decide_eq_true hb]
            · rw [if_neg hm] at hbit
              exact Or.inl hbit
          · exact Or.inr ⟨j + 1, by simpa using hj, by
              rw [show i + (j + 1) = (i + 1) + j by omega]; exact hcj, by simpa using hmj⟩
        · rintro (hbit | ⟨j, hj, hcj, hmj⟩)
          · refine Or.inl ?_
            rw [hio']
            by_cases hm : m = ChannelMode.Input ∨ m = ChannelMode.Output
            · rw [if_pos hm, testBit_or_shiftLeft_one, hbit, Bool.true_or]
            · rwa [if_neg hm]
          · match j, hj with
            | 0, _ =>
                rw [Nat.add_zero, hport] at hcj
                refine Or.inl ?_
                rw [hio', if_pos (by simpa using hmj), testBit_or_shiftLeft_one]
                simp [Option.some_inj.mp hcj]
            | j' + 1, hj =>
                refine Or.inr ⟨j', by simp at hj; omega, ?_, by simpa using hmj⟩
                rw [show (i + 1) + j' = i + (j' + 1) by omega]
                exact hcj
      · rw [houtp p]
        constructor
        · rintro (hbit | ⟨j, hj, hcj, hmj⟩)
          · rw [houtp'] at hbit
            by_cases hm : m = ChannelMode.Output
            · rw [if_pos hm, testBit_or_shiftLeft_one] at hbit
              rcases Bool.or_eq_true_iff.mp hbit with hb | hb
              · exact Or.inl hb
              · refine Or.inr ⟨0, by simp, ?_, by simpa using hm⟩
                rw [Nat.add_zero, hport, of_decide_eq_true hb]
            · rw [if_neg hm] at hbit
              exact Or.inl hbit
          · exact Or.inr ⟨j + 1, by simpa using hj, by
              rw [show i + (j + 1) = (i + 1) + j by omega]; exact hcj, by simpa using hmj⟩
        · rintro (hbit | ⟨j, hj, hcj, hmj⟩)
          · refine Or.inl ?_
            rw [houtp']
            by_cases hm : m = ChannelMode.Output
            · rw [if_pos hm, testBit_or_shiftLeft_one, hbit, Bool.true_or]
            · rwa [if_neg hm]
          · match j, hj with
            | 0, _ =>
                rw [Nat.add_zero, hport] at hcj
                refine Or.inl ?_
                rw [houtp', if_pos (by simpa using hmj), testBit_or_shiftLeft_one]
                simp [Option.some_inj.mp hcj]
            | j' + 1, hj =>
                refine Or.inr ⟨j', by simp at hj; omega, ?_, by simpa using hmj⟩
                rw [show (i + 1) + j' = i + (j' + 1) by omega]
                exact hcj

/-- C6: `channelToPort` maps channels 0-3 to themselves, channels 4 and 5
to ports 6 and 7, and fails for every channel ≥ 6; on the compact variant
(six channels) the `ioMask` bit at index `channelToPort c` is set iff
channel c's mode is `Input` or `Output`, and the `outputMask` bit iff it
is `Output` — so `Output` sets both bits, `Input` only the io bit, and
`Servo` neither. -/
theorem c6_channel_to_port_and_masks (modes : List ChannelMode) (c port : Nat) :
    (c ≤ 3 → channelToPort c = some c)
    ∧ (channelToPort 4 = some 6 ∧ channelToPort 5 = some 7)
    ∧ (6 ≤ c → channelToPort c = none)
    ∧ (modes.length = 6 → c < 6 → channelToPort c = some port →
        ∃ mm, computeMasks modes = some mm
          ∧ (mm.1.testBit port ↔
              (modes.getD c .Servo = ChannelMode.Input
                ∨ modes.getD c .Servo = ChannelMode.Output))
          ∧ (mm.2.testBit port ↔ modes.getD c .Servo = ChannelMode.Output)) := by
  refine ⟨fun h => by rw [channelToPort, if_pos h], ⟨rfl, rfl⟩,
    fun h => by rw [channelToPort, if_neg (by omega), if_neg (by omega)], ?_⟩
  intro hlen hc hport
  obtain ⟨mm, hmm, hio, houtp⟩ := computeMasksAux_spec modes 0 0 0 (by omega)
  refine ⟨mm, hmm, ?_, ?_⟩
  · rw [hio port]
    constructor
    · rintro (hbit | ⟨j, hj, hcj, hmj⟩)
      · simp at hbit
      · rw [Nat.zero_add] at hcj
        rwa [channelToPort_injOn hcj hport rfl] at hmj
    · intro hm
      exact Or.inr ⟨c, by omega, by rwa [Nat.zero_add], hm⟩
  · rw [houtp port]
    constructor
    · rintro (hbit | ⟨j, hj, hcj, hmj⟩)
      · simp at hbit
      · rw [Nat.zero_add] at hcj
        rwa [channelToPort_injOn hcj hport rfl] at hmj
    · intro hm
      exact Or.inr ⟨c, by omega, by rwa [Nat.zero_add], hm⟩

/-- Witness for C6, the spec scenario: setting channel 5 to `Output` on
the compact variant sets both mask bits at index `channelToPort 5 = 7`. -/
theorem c6_channel_to_port_and_masks_witness :
    channelToPort 5 = some 7
    ∧ (∃ mm, computeMasks
        [ChannelMode.Servo, .Servo, .Servo, .Servo, .Servo, .Output] = some mm
        ∧ mm.1.testBit 7 = true ∧ mm.2.testBit 7 = true) := by
  have h := c6_channel_to_port_and_masks
    [ChannelMode.Servo, .Servo, .Servo, .Servo, .Servo, .Output] 5 7
  obtain ⟨mm, hmm, hio, houtp⟩ := h.2.2.2 rfl (by omega) h.2.1.2
  exact ⟨h.2.1.2, mm, hmm, hio.mpr (Or.inr (by decide)), houtp.mpr (by decide)⟩

/-! ## Claim C3 — speed codec -/

lemma and_seven (b : Nat) : b &&& 7 = b % 8 := by
  have h := Nat.and_pow_two_sub_one_eq_mod b 3
  norm_num at h
  exact h

lemma shiftLeft_three (x : Nat) : x <<< 3 = x * 8 := by
  rw [Nat.shiftLeft_eq]

lemma shiftRight_succ_comm (m j : Nat) : m >>> (j + 1) = (m >>> 1) >>> j := by
  rw [Nat.add_comm, Nat.shiftRight_add]

lemma speedAux_spec :
    ∀ k m e, m >>> k < 32 → (∀ j, j < k → 32 ≤ m >>> j) → e + k ≤ 7 →
      normalSpeedToExponentialSpeedAux m e = (e + k) + ((m >>> k) <<< 3) := by
  intro k
  induction k with
  | zero =>
      intro m e h _ _
      rw [normalSpeedToExponentialSpeedAux, if_pos (by simpa using h)]
      simp
  | succ k ih =>
      intro m e h hmin hle
      have h32 : 32 ≤ m := by simpa using hmin 0 (by omega)
      rw [normalSpeedToExponentialSpeedAux, if_neg (by omega), if_neg (by omega)]
      rw [ih (m >>> 1) (e + 1)
        (by rw [← shiftRight_succ_comm]; exact h)
        (fun j hj => by rw [← shiftRight_succ_comm]; exact hmin (j + 1) (by omega))
        (by omega)]
      rw [shiftRight_succ_comm m k]
      congr 1
      omega

lemma speedAux_sat :
    ∀ d m e, e + d = 7 → (∀ j, j ≤ d → 32 ≤ m >>> j) →
      normalSpeedToExponentialSpeedAux m e = 0xFF := by
  intro d
  induction d with
  | zero =>
      intro m e he h
      have h32 : 32 ≤ m := by simpa using h 0 (by omega)
      rw [normalSpeedToExponentialSpeedAux, if_neg (by omega), if_pos (by omega)]
  | succ d ih =>
      intro m e he h
      have h32 : 32 ≤ m := by simpa using h 0 (by omega)
      rw [normalSpeedToExponentialSpeedAux, if_neg (by omega), if_neg (by omega)]
      exact ih (m >>> 1) (e + 1) (by omega)
        (fun j hj => by rw [← shiftRight_succ_comm]; exact h (j + 1) (by omega))

lemma speed_decode_formula (b : Nat) :
    exponentialSpeedToNormalSpeed b = (b >>> 3) * 2 ^ (b &&& 7) := by
  rw [exponentialSpeedToNormalSpeed, Nat.one_shiftLeft]

lemma speed_encode_of_least (v e : Nat) (he : e ≤ 7) (hlt : v >>> e < 32)
    (hmin : ∀ j, j < e → 32 ≤ v >>> j) :
    normalSpeedToExponentialSpeed v = e + ((v >>> e) <<< 3) := by
  rw [normalSpeedToExponentialSpeed, speedAux_spec e v 0 hlt hmin (by omega)]
  rw [Nat.zero_add]

lemma speed_roundtrip_of_least (v e : Nat) (he : e ≤ 7) (hlt : v >>> e < 32)
    (hmin : ∀ j, j < e → 32 ≤ v >>> j) :
    exponentialSpeedToNormalSpeed (normalSpeedToExponentialSpeed v) = (v >>> e) * 2 ^ e := by
  rw [speed_encode_of_least v e he hlt hmin, speed_decode_formula,
    shiftLeft_three, and_seven]
  have hsr : (e + (v >>> e) * 8) >>> 3 = v >>> e := by
    rw [Nat.shiftRight_eq_div_pow]
    norm_num
    omega
  have hm : (e + (v >>> e) * 8) % 8 = e := by omega
  rw [hsr, hm]

/-- C3: encoding a normal speed v finds the smallest exponent e in
[0, 7] with `v >> e < 32` and returns `e + ((v >> e) << 3)`, saturating
at 0xFF when no such exponent exists; decoding byte b returns
`(b >> 3) * 2^(b & 7)`; decode ∘ encode is the identity on every
v < 8000 that is an exact multiple of a power of two within mantissa
range, and for every other v < 8000 the decoded value is ≤ v with
relative error (error over v) bounded by `2^exponent`. -/
theorem c3_speed_codec (v b : Nat) :
    (∀ e, e ≤ 7 → v >>> e < 32 → (∀ j, j < e → 32 ≤ v >>> j) →
      normalSpeedToExponentialSpeed v = e + ((v >>> e) <<< 3))
    ∧ ((∀ j, j ≤ 7 → 32 ≤ v >>> j) → normalSpeedToExponentialSpeed v = 0xFF)
    ∧ exponentialSpeedToNormalSpeed b = (b >>> 3) * 2 ^ (b &&& 7)
    ∧ (v < 8000 → (∃ m k, m < 32 ∧ k ≤ 7 ∧ v = m * 2 ^ k) →
        exponentialSpeedToNormalSpeed (normalSpeedToExponentialSpeed v) = v)
    ∧ (v < 8000 → ¬ (∃ m k, m < 32 ∧ k ≤ 7 ∧ v = m * 2 ^ k) →
        exponentialSpeedToNormalSpeed (normalSpeedToExponentialSpeed v) ≤ v
        ∧ v - exponentialSpeedToNormalSpeed (normalSpeedToExponentialSpeed v)
            ≤ 2 ^ (normalSpeedToExponentialSpeed v &&& 7) * v) := by
  have hex : ∃ e, v >>> e < 32 := by
    refine ⟨v, ?_⟩
    rw [Nat.shiftRight_eq_div_pow]
    have := Nat.lt_two_pow v
    have : v / 2 ^ v = 0 := Nat.div_eq_of_lt this
    omega
  set E := Nat.find hex with hEdef
  have hE : v >>> E < 32 := Nat.find_spec hex
  have hEmin : ∀ j, j < E → 32 ≤ v >>> j := by
    intro j hj
    have := Nat.find_min hex hj
    omega
  refine ⟨fun e he hlt hmin => speed_encode_of_least v e he hlt hmin,
    fun hsat => by rw [normalSpeedToExponentialSpeed]; exact speedAux_sat 7 v 0 rfl hsat,
    speed_decode_formula b, fun hv hrep => ?_, fun hv hnrep => ?_⟩
  · -- exact round-trip for representable values
    obtain ⟨m, k, hm, hk, rfl⟩ := hrep
    have hPk : (m * 2 ^ k) >>> k < 32 := by
      rw [Nat.shiftRight_eq_div_pow, Nat.mul_div_cancel _ (Nat.two_pow_pos k)]
      exact hm
    have hEk : E ≤ k := Nat.find_min' hex hPk
    rw [speed_roundtrip_of_least _ E (by omega) hE hEmin]
    rw [Nat.shiftRight_eq_div_pow]
    exact Nat.div_mul_cancel (Dvd.dvd.mul_left (pow_dvd_pow 2 hEk) m)
  · -- bounded loss for the rest
    by_cases hE7 : E ≤ 7
    · rw [speed_roundtrip_of_least v E hE7 hE hEmin]
      constructor
      · rw [Nat.shiftRight_eq_div_pow]
        exact Nat.div_mul_le_self v (2 ^ E)
      · calc v - (v >>> E) * 2 ^ E ≤ v := Nat.sub_le _ _
          _ ≤ 2 ^ (normalSpeedToExponentialSpeed v &&& 7) * v :=
            Nat.le_mul_of_pos_left v (Nat.two_pow_pos _)
    · have hsat : ∀ j, j ≤ 7 → 32 ≤ v >>> j := fun j hj => hEmin j (by omega)
      have henc : normalSpeedToExponentialSpeed v = 0xFF := by
        rw [normalSpeedToExponentialSpeed]
        exact speedAux_sat 7 v 0 rfl hsat
      have hbig : 4096 ≤ v := by
        have h7 := hsat 7 (by omega)
        rw [Nat.shiftRight_eq_div_pow] at h7
        norm_num at h7
        omega
      rw [henc]
      constructor
      · calc exponentialSpeedToNormalSpeed 0xFF = 3968 := by decide
          _ ≤ v := by omega
      · have hd : exponentialSpeedToNormalSpeed 0xFF = 3968 := by decide
        rw [hd]
        have : (0xFF : Nat) &&& 7 = 7 := by decide
        rw [this]
        omega

/-- Witness for C3: v = 160 = 5 · 2^5 round-trips exactly (exponent 3,
encoded byte 163); v = 33 is not representable and decodes back to
32 ≤ 33 within the error bound; the saturating branch yields 0xFF at
v = 4096. -/
theorem c3_speed_codec_witness :
    normalSpeedToExponentialSpeed 160 = 3 + ((160 >>> 3) <<< 3)
    ∧ exponentialSpeedToNormalSpeed (normalSpeedToExponentialSpeed 160) = 160
    ∧ exponentialSpeedToNormalSpeed (normalSpeedToExponentialSpeed 33) ≤ 33
    ∧ normalSpeedToExponentialSpeed 4096 = 0xFF :=
  ⟨(c3_speed_codec 160 0).1 3 (by norm_num) (by decide) (by decide),
   (c3_speed_codec 160 0).2.2.2.1 (by norm_num) ⟨5, 5, by norm_num⟩,
   ((c3_speed_codec 33 0).2.2.2.2 (by norm_num)
      (by rintro ⟨m, k, hm, hk, he⟩; interval_cases k <;> omega)).1,
   (c3_speed_codec 4096 0).2.1 (by decide)⟩

/-! ## Claim C10 — totality of the parameter-range lookup -/

lemma servoParameterFold_ge30 (id : Nat) (h : 30 ≤ id) :
    servoParameterFold id = (id - 30) % 9 + 30 := by
  rw [servoParameterFold]
  omega

lemma getRange_ge30 (id : Nat) (h : 30 ≤ id) :
    getRange id =
      (if (id - 30) % 9 + 30 ∈ [37, 33, 32, 38] then some ParamRange.u8
       else if (id - 30) % 9 + 30 ∈ [30, 34] then some ⟨2, 0, 32440⟩
       else if (id - 30) % 9 + 30 = 36 then some ⟨1, 1, 50⟩
       else none) := by
  rw [getRange]
  rw [if_neg (by
      intro hmem
      simp only [List.mem_cons, List.not_mem_nil, or_false] at hmem
      omega),
    if_neg (by
      intro hmem
      simp only [List.mem_cons, List.not_mem_nil, or_false] at hmem
      omega),
    if_neg (by
      intro hmem
      simp only [List.mem_cons, List.not_mem_nil, or_false] at hmem
      omega),
    if_neg (by omega), if_neg (by omega), if_neg (by omega), if_neg (by omega)]
  show (if servoParameterFold id ∈ [37, 33, 32, 38] then some ParamRange.u8
       else if servoParameterFold id ∈ [30, 34] then some ⟨2, 0, 32440⟩
       else if servoParameterFold id = 36 then some ⟨1, 1, 50⟩
       else none) = _
  rw [servoParameterFold_ge30 id h]

/-- C10: `getRange` never fails for any parameter identifier below the
per-servo region — every unlisted identifier is folded by
`((id - 30) mod 9) + 30` onto a servo-0 slot and assigned that slot's
range; it fails exactly when the identifier is unlisted and its fold is
31 or 35 (the high bytes of the 2-byte home and neutral parameters),
which only happens for identifiers ≥ 30. -/
theorem c10_get_range_total (id : Nat) :
    (id < 30 → (getRange id).isSome)
    ∧ (getRange id = none ↔ (id ∉ listedParameterIds
        ∧ (servoParameterFold id = 31 ∨ servoParameterFold id = 35)))
    ∧ (getRange id = none → 30 ≤ id)
    ∧ (id ∉ listedParameterIds → servoParameterFold id ≠ 31 →
        servoParameterFold id ≠ 35 →
        getRange id = getRange (servoParameterFold id)) := by
  by_cases hlt : id < 30
  · interval_cases id <;> decide
  · have h30 : 30 ≤ id := by omega
    have hnl : id ∉ listedParameterIds := by
      intro hmem
      simp only [listedParameterIds, List.mem_cons, List.not_mem_nil, or_false] at hmem
      omega
    obtain ⟨r, hr9, hrid⟩ : ∃ r, r < 9 ∧ (id - 30) % 9 = r :=
      ⟨(id - 30) % 9, Nat.mod_lt _ (by omega), rfl⟩
    have hfold : servoParameterFold id = r + 30 := by
      rw [servoParameterFold_ge30 id h30, hrid]
    have hget := getRange_ge30 id h30
    rw [hrid] at hget
    refine ⟨fun h => absurd h hlt, ?_, fun _ => h30, fun _ h31 h35 => ?_⟩
    · rw [hget, hfold]
      simp only [hnl, not_false_iff, true_and]
      interval_cases r <;> simp
    · rw [hget, hfold]
      rw [hfold] at h31 h35
      interval_cases r <;> first | omega | decide

/-- Witness for C10: identifier 5 (unlisted, below the per-servo region)
folds to slot 32 and gets that slot's u8 range, and identifier 40 (fold
31) is exactly a failure. -/
theorem c10_get_range_total_witness :
    (getRange 5).isSome
    ∧ getRange 5 = getRange (servoParameterFold 5)
    ∧ (getRange 40 = none ↔ (40 ∉ listedParameterIds
        ∧ (servoParameterFold 40 = 31 ∨ servoParameterFold 40 = 35))) :=
  ⟨(c10_get_range_total 5).1 (by norm_num),
   (c10_get_range_total 5).2.2.2 (by decide) (by decide) (by decide),
   (c10_get_range_total 40).2.1⟩

/-! ## Claim C9 — Micro Maestro status-buffer layout -/

lemma byteAt_take (b : List Nat) (n i : Nat) (h : i < n) :
    byteAt (b.take n) i = byteAt b i := by
  rw [byteAt, byteAt, List.getD_eq_getElem?_getD, List.getD_eq_getElem?_getD,
    List.getElem?_take_of_lt h]

lemma byteAt_drop (b : List Nat) (n i : Nat) :
    byteAt (b.drop n) i = byteAt b (n + i) := by
  rw [byteAt, byteAt, List.getD_eq_getElem?_getD, List.getD_eq_getElem?_getD,
    List.getElem?_drop]

lemma u16le_take (b : List Nat) (n i : Nat) (h : i + 1 < n) :
    u16le (b.take n) i = u16le b i := by
  rw [u16le, u16le, byteAt_take b n i (by omega), byteAt_take b n (i + 1) h]

lemma u16le_drop (b : List Nat) (n i : Nat) :
    u16le (b.drop n) i = u16le b (n + i) := by
  rw [u16le, u16le, byteAt_drop, byteAt_drop, Nat.add_assoc]

lemma i16le_take (b : List Nat) (n i : Nat) (h : i + 1 < n) :
    i16le (b.take n) i = i16le b i := by
  rw [i16le, i16le, u16le_take b n i h]

lemma getD_map_range {α : Type} (n i : Nat) (h : i < n) (f : Nat → α) (d : α) :
    ((List.range n).map f).getD i d = f i := by
  rw [List.getD_eq_getElem?_getD, List.getElem?_map, List.getElem?_range h]
  rfl

/-- C9 counterexample: on the byte buffer 0,1,2,…,137 the source layout
(three reserved 16-bit slots after the error flags, stack at byte offset
10) reads stack slot 0 as 10 + 256·11 = 2826, while the claimed layout
(three reserved bytes, stack at byte offset 7) would read
7 + 256·8 = 2055. -/
theorem c9_micro_layout_counterexample :
    (getVariableMicroMaestro 6 (List.range 138)).1.stack.getD 0 0 = 2826
    ∧ (specClaimMicroVariables (List.range 138)).stack.getD 0 0 = 2055
    ∧ (2826 : Int) ≠ 2055 := by
  exact ⟨by decide, by decide, by decide⟩

/-- C9 amended: the combined Micro Maestro status buffer decodes as a
96-byte variables record — 1-byte stack pointer, 1-byte call-stack
pointer, 2-byte error flags, three reserved 16-bit slots (6 bytes, not
3), an inline stack of 32 signed 16-bit slots at offset 10, an inline
call stack of 10 unsigned 16-bit slots at offset 74, a 1-byte script-done
flag and 1 reserved byte — immediately followed by one 7-byte record per
channel laid out as 2-byte position, 2-byte target, 2-byte speed, 1-byte
acceleration. -/
theorem c9_micro_status_layout (packed : List Nat) (i c : Nat) :
    microMaestroVariablesSize = 96
    ∧ servoStatusSize = 7
    ∧ (getVariableMicroMaestro 6 packed).1.stackPointer = byteAt packed 0
    ∧ (getVariableMicroMaestro 6 packed).1.callStackPointer = byteAt packed 1
    ∧ (getVariableMicroMaestro 6 packed).1.errors = u16le packed 2
    ∧ (getVariableMicroMaestro 6 packed).1.buffer.length = 3
    ∧ (getVariableMicroMaestro 6 packed).1.stack.length = 32
    ∧ (i < 32 →
        (getVariableMicroMaestro 6 packed).1.stack.getD i 0 = i16le packed (10 + 2 * i))
    ∧ (getVariableMicroMaestro 6 packed).1.callStack.length = 10
    ∧ (i < 10 →
        (getVariableMicroMaestro 6 packed).1.callStack.getD i 0 = u16le packed (74 + 2 * i))
    ∧ (getVariableMicroMaestro 6 packed).1.scriptDone = byteAt packed 94
    ∧ (c < 6 →
        ((getVariableMicroMaestro 6 packed).2.getD c ⟨0, 0, 0, 0⟩).position
            = u16le packed (96 + 7 * c)
        ∧ ((getVariableMicroMaestro 6 packed).2.getD c ⟨0, 0, 0, 0⟩).target
            = u16le packed (96 + 7 * c + 2)
        ∧ ((getVariableMicroMaestro 6 packed).2.getD c ⟨0, 0, 0, 0⟩).speed
            = u16le packed (96 + 7 * c + 4)
        ∧ ((getVariableMicroMaestro 6 packed).2.getD c ⟨0, 0, 0, 0⟩).acceleration
            = byteAt packed (96 + 7 * c + 6)) := by
  have hservo : ∀ hc : c < 6, (getVariableMicroMaestro 6 packed).2.getD c ⟨0, 0, 0, 0⟩
      = ServoStatus.decode ((packed.drop (96 + 7 * c)).take 7) := by
    intro hc
    rw [getVariableMicroMaestro]
    simp only
    rw [getD_map_range 6 c hc]
    rw [show servoStatusSize * c = 7 * c by rw [servoStatusSize]]
    rw [show microMaestroVariablesSize = 96 from rfl]
    rw [List.drop_drop]
    rw [show servoStatusSize = 7 from rfl]
  refine ⟨rfl, rfl, ?_, ?_, ?_, ?_, ?_, fun hi => ?_, ?_, fun hi => ?_, ?_, fun hc => ?_⟩
  · rw [getVariableMicroMaestro]
    simp only [MicroMaestroVariables.decode]
    exact byteAt_take packed 96 0 (by norm_num)
  · rw [getVariableMicroMaestro]
    simp only [MicroMaestroVariables.decode]
    exact byteAt_take packed 96 1 (by norm_num)
  · rw [getVariableMicroMaestro]
    simp only [MicroMaestroVariables.decode]
    exact u16le_take packed 96 2 (by norm_num)
  · rw [getVariableMicroMaestro]
    simp only [MicroMaestroVariables.decode]
    simp
  · rw [getVariableMicroMaestro]
    simp only [MicroMaestroVariables.decode]
    simp
  · rw [getVariableMicroMaestro]
    simp only [MicroMaestroVariables.decode]
    rw [getD_map_range 32 i hi]
    exact i16le_take packed 96 (10 + 2 * i) (by omega)
  · rw [getVariableMicroMaestro]
    simp only [MicroMaestroVariables.decode]
    simp
  · rw [getVariableMicroMaestro]
    simp only [MicroMaestroVariables.decode]
    rw [getD_map_range 10 i hi]
    exact u16le_take packed 96 (74 + 2 * i) (by omega)
  · rw [getVariableMicroMaestro]
    simp only [MicroMaestroVariables.decode]
    exact byteAt_take packed 96 94 (by norm_num)
  · rw [hservo hc]
    simp only [ServoStatus.decode]
    refine ⟨?_, ?_, ?_, ?_⟩
    · rw [u16le_take _ 7 0 (by norm_num), u16le_drop, Nat.add_zero]
    · rw [u16le_take _ 7 2 (by norm_num), u16le_drop]
    · rw [u16le_take _ 7 4 (by norm_num), u16le_drop]
    · rw [byteAt_take _ 7 6 (by norm_num), byteAt_drop]

/-- Witness for C9 on the buffer 0,1,…,137: stack slot 0 comes from
offset 10 and channel 5's position from offset 131. -/
theorem c9_micro_status_layout_witness :
    (getVariableMicroMaestro 6 (List.range 138)).1.stack.getD 0 0
        = i16le (List.range 138) 10
    ∧ ((getVariableMicroMaestro 6 (List.range 138)).2.getD 5 ⟨0, 0, 0, 0⟩).position
        = u16le (List.range 138) (96 + 7 * 5) := by
  obtain ⟨-, -, -, -, -, -, -, h8, -, -, -, h12⟩ :=
    c9_micro_status_layout (List.range 138) 0 5
  exact ⟨h8 (by norm_num), (h12 (by norm_num)).1⟩

/-! ## Claim C1 — validation versus transfer order -/

lemma setRawParameterT_of_some {p : Nat} {r : ParamRange}
    (hg : getRange p = some r) (v : Int) :
    setRawParameterT p v =
      if v < (r.minimumValue : Int) ∨ (r.maximumValue : Int) < v then
        ([], some (.outOfRange p v))
      else ([.setParameter p v], none) := by
  rw [setRawParameterT, hg]

lemma setRawParameterT_of_none {p : Nat} (hg : getRange p = none) (v : Int) :
    setRawParameterT p v = ([], some (.unknownParameter p)) := by
  rw [setRawParameterT, hg]

lemma runParamWrites_valid :
    ∀ (writes : List (Nat × Int)) (p : Nat) (v : Int),
      Transfer.setParameter p v ∈ (runParamWrites writes).1 →
      ∃ r, getRange p = some r
        ∧ (r.minimumValue : Int) ≤ v ∧ v ≤ (r.maximumValue : Int) := by
  intro writes
  induction writes with
  | nil =>
      intro p v h
      simp [runParamWrites] at h
  | cons w rest ih =>
      obtain ⟨p', v'⟩ := w
      intro p v h
      rw [runParamWrites] at h
      rcases hg : getRange p' with _ | r
      · rw [setRawParameterT_of_none hg] at h
        simp [seqT] at h
      · rw [setRawParameterT_of_some hg] at h
        by_cases hv : v' < (r.minimumValue : Int) ∨ (r.maximumValue : Int) < v'
        · rw [if_pos hv] at h
          simp [seqT] at h
        · rw [if_neg hv] at h
          simp only [seqT, List.cons_append, List.nil_append, List.mem_cons] at h
          rcases h with heq | hmem
          · rw [Transfer.setParameter.injEq] at heq
            obtain ⟨rfl, rfl⟩ := heq
            refine ⟨r, hg, ?_, ?_⟩ <;> omega
          · exact ih p v hmem

lemma loadProgramTrace_setParameter_valid (micro withCrc : Bool)
    (maxLen off : Nat) (prog : Program) (p : Nat) (v : Int) :
    Transfer.setParameter p v ∈ (loadProgramTrace micro maxLen off prog withCrc).1 →
    ∃ r, getRange p = some r
      ∧ (r.minimumValue : Int) ≤ v ∧ v ≤ (r.maximumValue : Int) := by
  rw [loadProgramTrace]
  cases hbl : loadProgramByteList maxLen prog.byteCode with
  | none =>
      intro h
      simp [seqT] at h
  | some byteList =>
      intro h
      have h22 : getRange 22 = some ParamRange.u16 := rfl
      by_cases hw : withCrc
      · rw [if_pos hw, setRawParameterT_of_some h22] at h
        by_cases hv : ((prog.crc : Int)) < ((ParamRange.u16.minimumValue : Nat) : Int)
            ∨ (((ParamRange.u16.maximumValue : Nat) : Int)) < ((prog.crc : Int))
        · rw [if_pos hv] at h
          simp [seqT, writeScriptBlocks, subroutineWriteBlocks, reinitTrace] at h
        · rw [if_neg hv] at h
          simp [seqT, writeScriptBlocks, subroutineWriteBlocks, reinitTrace] at h
          obtain ⟨rfl, rfl⟩ := h
          push_neg at hv
          exact ⟨ParamRange.u16, h22, hv.1, hv.2⟩
      · rw [if_neg hw] at h
        simp [seqT, writeScriptBlocks, subroutineWriteBlocks, reinitTrace] at h

set_option maxRecDepth 8000 in
/-- C1 counterexample: applying a settings object whose serial device
number is 200 (out of the u7 range) issues four transfers (serial mode,
baud rate, CRC enable, never-suspend) before the validation failure, and
uploading an oversized script issues the script-done transfer before the
script-too-long failure — so validation is not completed before the
first transfer. -/
theorem c1_validation_counterexample :
    setUscSettingsTrace true 6
      { serialDeviceNumber := 200, fixedBaudRate := 0,
        channelSettings := List.replicate 6 {} } =
      some ([.setParameter 3 2, .setParameter 4 0,
             .setParameter 8 0, .setParameter 9 0],
            some (.outOfRange 10 200))
    ∧ loadProgramTrace true 1024 64 ⟨List.replicate 1025 0, [], 0⟩ true =
        ([.scriptDoneTransfer 1], some (.scriptTooLong 1025)) := by
  exact ⟨by decide, by decide⟩

/-- C1 amended: validation is per-parameter rather than pre-flight —
each derived raw value is range-checked immediately before its own
transfer, so every transfer actually issued carries an in-range value and
a validation failure stops the operation at the failing value, but
transfers already issued for earlier parameters stand; in `loadProgram`
the script-length check precedes every script-memory transfer but follows
the initial script-done transfer. -/
theorem c1_per_parameter_validation (micro withCrc : Bool)
    (servoCount maxLen off : Nat) (s : UscSettings) (prog : Program)
    (t : Trace) (p : Nat) (v : Int) :
    (setUscSettingsTrace micro servoCount s = some t →
      Transfer.setParameter p v ∈ t.1 →
      ∃ r, getRange p = some r
        ∧ (r.minimumValue : Int) ≤ v ∧ v ≤ (r.maximumValue : Int))
    ∧ (Transfer.setParameter p v ∈ (loadProgramTrace micro maxLen off prog withCrc).1 →
      ∃ r, getRange p = some r
        ∧ (r.minimumValue : Int) ≤ v ∧ v ≤ (r.maximumValue : Int))
    ∧ (prog.byteCode.length > maxLen →
      loadProgramTrace micro maxLen off prog withCrc
        = ([Transfer.scriptDoneTransfer 1],
           some (.scriptTooLong prog.byteCode.length))) := by
  refine ⟨fun ht hmem => ?_, loadProgramTrace_setParameter_valid micro withCrc maxLen off prog p v,
    fun hlong => ?_⟩
  · rw [setUscSettingsTrace] at ht
    obtain ⟨writes, _, hrun⟩ := Option.map_eq_some'.mp ht
    rw [← hrun] at hmem
    exact runParamWrites_valid writes p v hmem
  · rw [loadProgramTrace, loadProgramByteList, if_pos hlong]
    rfl

set_option maxRecDepth 8000 in
/-- Witness for C1 amended: uploading an empty program with CRC 5 issues
the CRC parameter write validated against the u16 range, and a 1025-byte
program on a 1024-byte device fails right after the script-done
transfer. -/
theorem c1_per_parameter_validation_witness :
    (∃ r, getRange 22 = some r
      ∧ (r.minimumValue : Int) ≤ 5 ∧ (5 : Int) ≤ (r.maximumValue : Int))
    ∧ loadProgramTrace true 1024 64 ⟨List.replicate 1025 0, [], 0⟩ false
        = ([Transfer.scriptDoneTransfer 1], some (.scriptTooLong 1025)) := by
  refine ⟨(c1_per_parameter_validation true true 6 1024 64 {} ⟨[], [], 5⟩
      ([], none) 22 5).2.1 (by decide), ?_⟩
  have h := (c1_per_parameter_validation true false 6 1024 64 {}
      ⟨List.replicate 1025 0, [], 0⟩ ([], none) 22 5).2.2
      (by rw [show (Program.mk (List.replicate 1025 0) [] 0).byteCode.length
            = 1025 from List.length_replicate 1025 0 ▸ rfl]; omega)
  rw [show (Program.mk (List.replicate 1025 0) [] 0).byteCode.length
      = 1025 from List.length_replicate 1025 0 ▸ rfl] at h
  exact h

end Maestro
